import Mathlib

/-!
Verification of the TPA2016D2 amplifier driver: register-map encode/decode,
shadow state, unit conversions, and transport sequencing, shallowly embedded
from the Rust source (`src/regmap.rs`, `src/lib.rs`).

Machine integers (`u8`, `u32`, `usize`) are modelled as `Nat`, with `% 256`
applied exactly where the source narrows to `u8`.
-/

/-- Control register 1 (`regmap.rs`, `Register1`): boolean flags. -/
structure Register1 where
  SPK_EN_R : Bool
  SPK_EN_L : Bool
  SWS : Bool
  FAULT_R : Bool
  FAULT_L : Bool
  Thermal : Bool
  NG_EN : Bool
deriving DecidableEq

/-- `Register1::default` from the source. -/
def Register1.default : Register1 :=
  { SPK_EN_R := true
    SPK_EN_L := true
    SWS := false
    FAULT_R := false
    FAULT_L := false
    Thermal := false
    NG_EN := true }

/-- `Register1::as_byte`: the `r |= ...` chain, bit 1 always set. -/
def Register1.as_byte (r : Register1) : Nat :=
  let b : Nat := 0
  let b := if r.SPK_EN_R then b ||| (1 <<< 7) else b
  let b := if r.SPK_EN_L then b ||| (1 <<< 6) else b
  let b := if r.SWS then b ||| (1 <<< 5) else b
  let b := if r.FAULT_R then b ||| (1 <<< 4) else b
  let b := if r.FAULT_L then b ||| (1 <<< 3) else b
  let b := if r.Thermal then b ||| (1 <<< 2) else b
  let b := b ||| (1 <<< 1)
  let b := if r.NG_EN then b ||| 1 else b
  b

/-- `Register1::update`: overwrites every field from the byte (bit 1 reserved). -/
def Register1.update (_self : Register1) (new : Nat) : Register1 :=
  { SPK_EN_R := new &&& (1 <<< 7) != 0
    SPK_EN_L := new &&& (1 <<< 6) != 0
    SWS := new &&& (1 <<< 5) != 0
    FAULT_R := new &&& (1 <<< 4) != 0
    FAULT_L := new &&& (1 <<< 3) != 0
    Thermal := new &&& (1 <<< 2) != 0
    NG_EN := new &&& 1 != 0 }

/-- 6-bit magnitude register (`U6Register`), registers 2-5. -/
structure U6Register where
  val : Nat
deriving DecidableEq

/-- `U6Register::set`: mask to the low 6 bits. -/
def U6Register.set (_self : U6Register) (value : Nat) : U6Register :=
  ⟨value &&& 0x3F⟩

/-- `U6Register::as_byte`. -/
def U6Register.as_byte (r : U6Register) : Nat :=
  r.val &&& 0x3F

/-- `U6Register::update`. -/
def U6Register.update (_self : U6Register) (val : Nat) : U6Register :=
  ⟨val &&& 0x3F⟩

/-- Limiter/gate register 6 (`Register6`). -/
structure Register6 where
  output_limiter_disable : Bool
  noise_gate_threshold : Nat
  output_limiter_level : Nat
deriving DecidableEq

/-- `Register6::default`. -/
def Register6.default : Register6 :=
  { output_limiter_disable := false
    noise_gate_threshold := 0b01
    output_limiter_level := 0b11010 }

/-- `Register6::as_byte`. -/
def Register6.as_byte (r : Register6) : Nat :=
  let b : Nat := 0
  let b := if r.output_limiter_disable then b ||| (1 <<< 7) else b
  let b := b ||| ((r.noise_gate_threshold &&& 0b11) <<< 5)
  let b := b ||| (r.output_limiter_level &&& 0b11111)
  b

/-- `Register6::update`. -/
def Register6.update (_self : Register6) (val : Nat) : Register6 :=
  { output_limiter_disable := val &&& (1 <<< 7) != 0
    noise_gate_threshold := (val >>> 5) &&& 0b11
    output_limiter_level := val &&& 0b11111 }

/-- Gain/ratio register 7 (`Register7`). -/
structure Register7 where
  max_gain : Nat
  compression_ratio : Nat
deriving DecidableEq

/-- `Register7::default`. -/
def Register7.default : Register7 :=
  { max_gain := 0b1100
    compression_ratio := 0b10 }

/-- `Register7::as_byte`. -/
def Register7.as_byte (r : Register7) : Nat :=
  ((r.max_gain &&& 0b1111) <<< 4) ||| (r.compression_ratio &&& 0b11)

/-- `Register7::update`. -/
def Register7.update (_self : Register7) (val : Nat) : Register7 :=
  { max_gain := val >>> 4
    compression_ratio := val &&& 0b11 }

/-- The shadow register map (`RegisterMap`). -/
structure RegisterMap where
  reg1 : Register1
  atk_time : U6Register
  rel_time : U6Register
  hold_time : U6Register
  fixedGain : U6Register
  reg6 : Register6
  reg7 : Register7
deriving DecidableEq

/-- `RegisterMap::default`: the documented power-on-reset values. -/
def RegisterMap.default : RegisterMap :=
  { reg1 := Register1.default
    atk_time := ⟨0x05⟩
    rel_time := ⟨0x0B⟩
    hold_time := ⟨0x00⟩
    fixedGain := ⟨0x06⟩
    reg6 := Register6.default
    reg7 := Register7.default }

/-- `RegisterMap::reg_as_byte`: dispatch on the register index, 0 otherwise. -/
def RegisterMap.reg_as_byte (rm : RegisterMap) (idx : Nat) : Nat :=
  match idx with
  | 1 => rm.reg1.as_byte
  | 2 => rm.atk_time.as_byte
  | 3 => rm.rel_time.as_byte
  | 4 => rm.hold_time.as_byte
  | 5 => rm.fixedGain.as_byte
  | 6 => rm.reg6.as_byte
  | 7 => rm.reg7.as_byte
  | _ => 0

/-- Modelled from the spec: `RegisterMap::update_map` is called by `lib.rs`
(`sync`, `get_faults`) but its definition is not among the provided source
files.  The spec describes it as `apply(address, byte)`: decodes `byte` into
the register at that address, replacing its prior field values entirely;
addresses outside 1-7 are a caller contract violation (modelled as a no-op,
mirroring the dispatch shape of `reg_as_byte`). -/
def RegisterMap.update_map (rm : RegisterMap) (idx : Nat) (val : Nat) : RegisterMap :=
  match idx with
  | 1 => { rm with reg1 := rm.reg1.update val }
  | 2 => { rm with atk_time := rm.atk_time.update val }
  | 3 => { rm with rel_time := rm.rel_time.update val }
  | 4 => { rm with hold_time := rm.hold_time.update val }
  | 5 => { rm with fixedGain := rm.fixedGain.update val }
  | 6 => { rm with reg6 := rm.reg6.update val }
  | 7 => { rm with reg7 := rm.reg7.update val }
  | _ => rm

/-- `TPA2016_I2C_ADDR = 0xB0 >> 1` from `lib.rs`. -/
def TPA2016_I2C_ADDR : Nat := 0xB0 >>> 1

/-- `release_time_to_u6(v: u32) -> u8`: `(v / 1644) as u8`. -/
def release_time_to_u6 (v : Nat) : Nat := (v / 1644) % 256

/-- `hold_time_to_u6(v: u32) -> u8`: `(v / 137) as u8`. -/
def hold_time_to_u6 (v : Nat) : Nat := (v / 137) % 256

/-- The `Faults` result record from `lib.rs`. -/
structure Faults where
  fault_r : Bool
  fault_l : Bool
  thermal : Bool
deriving DecidableEq

/-- The `CompressionRatio` enum from `lib.rs`. -/
inductive CompressionRatio where
  | Ratio1
  | Ratio2
  | Ratio4
  | Ratio8
deriving DecidableEq

/-- The `as u8` discriminant of a CompressionRatio value. -/
def CompressionRatio.toNat : CompressionRatio → Nat
  | .Ratio1 => 0b00
  | .Ratio2 => 0b01
  | .Ratio4 => 0b10
  | .Ratio8 => 0b11

/-- The `NoiseGateThreshold` enum from `lib.rs`. -/
inductive NoiseGateThreshold where
  | Ngt20mV
  | Ngt10mV
  | Ngt4mV
  | Ngt1mV
deriving DecidableEq

/-- The `as u8` discriminant of a NoiseGateThreshold value. -/
def NoiseGateThreshold.toNat : NoiseGateThreshold → Nat
  | .Ngt20mV => 0b11
  | .Ngt10mV => 0b10
  | .Ngt4mV => 0b01
  | .Ngt1mV => 0b00

/-- The `AgcPreset` enum from `lib.rs`. -/
inductive AgcPreset where
  | Pop
  | Classical
  | Jazz
  | Rap
  | Rock
  | Voice
deriving DecidableEq

/-- One bus transaction as issued by the driver (`i2c.write` or
`i2c.write_read`), recorded whether or not the bus reports success. -/
inductive Transaction where
  | write (addr : Nat) (bytes : List Nat)
  | writeRead (addr : Nat) (out : List Nat) (buflen : Nat)
deriving DecidableEq

/-- The register address a driver-issued transaction targets (the first
payload byte of either transaction shape). -/
def Transaction.regAddr : Transaction → Nat
  | .write _ bytes => bytes.headD 0
  | .writeRead _ out _ => out.headD 0

/-- Whether a transaction is a plain bus write. -/
def Transaction.isWrite : Transaction → Bool
  | .write _ _ => true
  | .writeRead _ _ _ => false

/-- The embedded-hal i2c capability: the environment decides each call's
outcome as a function of the transactions issued so far.  `writeReadFn`
returns the byte filling the one-byte read buffer. -/
structure I2CBus (ε : Type) where
  writeFn : List Transaction → Nat → List Nat → Except ε Unit
  writeReadFn : List Transaction → Nat → List Nat → Except ε Nat

/-- The driver state: the shadow register map plus the trace of issued
transactions (`Tpa2016d2 { i2c, regmap }`, with the i2c handle's observable
history made explicit). -/
structure DriverState (ε : Type) where
  regmap : RegisterMap
  trace : List Transaction

/-- `Tpa2016d2::write_reg`: one two-byte bus write `[regaddr, value]`. -/
def write_reg {ε} (bus : I2CBus ε) (s : DriverState ε) (regaddr value : Nat) :
    Except ε Unit × DriverState ε :=
  (bus.writeFn s.trace TPA2016_I2C_ADDR [regaddr, value],
   { s with trace := s.trace ++ [Transaction.write TPA2016_I2C_ADDR [regaddr, value]] })

/-- `Tpa2016d2::read_reg`: out-of-range addresses return `Ok(0)` without a
bus transaction; otherwise a write-read of one byte (narrowed to `u8`). -/
def read_reg {ε} (bus : I2CBus ε) (s : DriverState ε) (regidx : Nat) :
    Except ε Nat × DriverState ε :=
  if regidx < 1 ∨ regidx > 7 then
    (Except.ok 0, s)
  else
    match bus.writeReadFn s.trace TPA2016_I2C_ADDR [regidx] with
    | Except.ok v =>
        (Except.ok (v % 256),
         { s with trace := s.trace ++ [Transaction.writeRead TPA2016_I2C_ADDR [regidx] 1] })
    | Except.error e =>
        (Except.error e,
         { s with trace := s.trace ++ [Transaction.writeRead TPA2016_I2C_ADDR [regidx] 1] })

/-- `Tpa2016d2::write_regmap_reg`: encode the shadow register, then write it. -/
def write_regmap_reg {ε} (bus : I2CBus ε) (s : DriverState ε) (idx : Nat) :
    Except ε Unit × DriverState ε :=
  write_reg bus s idx (s.regmap.reg_as_byte idx)

/-- `Tpa2016d2::speaker_enable`. -/
def speaker_enable {ε} (bus : I2CBus ε) (s : DriverState ε) (le re : Bool) :
    Except ε Unit × DriverState ε :=
  let s := { s with regmap := { s.regmap with
    reg1 := { s.regmap.reg1 with SPK_EN_L := le, SPK_EN_R := re } } }
  write_regmap_reg bus s 1

/-- `Tpa2016d2::get_faults`. -/
def get_faults {ε} (bus : I2CBus ε) (s : DriverState ε) :
    Except ε Faults × DriverState ε :=
  match read_reg bus s 1 with
  | (Except.ok val, s1) =>
      let s2 := { s1 with regmap := s1.regmap.update_map 1 val }
      (Except.ok
        { fault_r := s2.regmap.reg1.FAULT_R
          fault_l := s2.regmap.reg1.FAULT_L
          thermal := s2.regmap.reg1.Thermal }, s2)
  | (Except.error e, s1) => (Except.error e, s1)

/-- `Tpa2016d2::disable_device`. -/
def disable_device {ε} (bus : I2CBus ε) (s : DriverState ε) :
    Except ε Unit × DriverState ε :=
  let s := { s with regmap := { s.regmap with
    reg1 := { s.regmap.reg1 with SWS := true } } }
  write_regmap_reg bus s 1

/-- `Tpa2016d2::noise_gate`. -/
def noise_gate {ε} (bus : I2CBus ε) (s : DriverState ε) (enable : Bool) :
    Except ε Unit × DriverState ε :=
  let s := { s with regmap := { s.regmap with
    reg1 := { s.regmap.reg1 with NG_EN := enable } } }
  write_regmap_reg bus s 1

/-- `Tpa2016d2::set_attack_time`. -/
def set_attack_time {ε} (bus : I2CBus ε) (s : DriverState ε) (val : Nat) :
    Except ε Unit × DriverState ε :=
  let s := { s with regmap := { s.regmap with
    atk_time := s.regmap.atk_time.set val } }
  write_regmap_reg bus s 2

/-- `Tpa2016d2::set_release_time`. -/
def set_release_time {ε} (bus : I2CBus ε) (s : DriverState ε) (val : Nat) :
    Except ε Unit × DriverState ε :=
  let s := { s with regmap := { s.regmap with
    rel_time := s.regmap.rel_time.set val } }
  write_regmap_reg bus s 3

/-- `Tpa2016d2::set_hold_time`. -/
def set_hold_time {ε} (bus : I2CBus ε) (s : DriverState ε) (val : Nat) :
    Except ε Unit × DriverState ε :=
  let s := { s with regmap := { s.regmap with
    hold_time := s.regmap.hold_time.set val } }
  write_regmap_reg bus s 4

/-- `Tpa2016d2::gain`. -/
def gain {ε} (bus : I2CBus ε) (s : DriverState ε) (g : Nat) :
    Except ε Unit × DriverState ε :=
  let s := { s with regmap := { s.regmap with
    fixedGain := s.regmap.fixedGain.set g } }
  write_regmap_reg bus s 5

/-- `Tpa2016d2::noise_gate_threshold`. -/
def noise_gate_threshold {ε} (bus : I2CBus ε) (s : DriverState ε)
    (val : NoiseGateThreshold) : Except ε Unit × DriverState ε :=
  let s := { s with regmap := { s.regmap with
    reg6 := { s.regmap.reg6 with noise_gate_threshold := val.toNat } } }
  write_regmap_reg bus s 6

/-- `Tpa2016d2::output_limiter_level`: note the value is stored unmasked. -/
def output_limiter_level {ε} (bus : I2CBus ε) (s : DriverState ε) (val : Nat) :
    Except ε Unit × DriverState ε :=
  let s := { s with regmap := { s.regmap with
    reg6 := { s.regmap.reg6 with output_limiter_level := val } } }
  write_regmap_reg bus s 6

/-- `Tpa2016d2::compression_ratio`. -/
def compression_ratio {ε} (bus : I2CBus ε) (s : DriverState ε)
    (ratio : CompressionRatio) : Except ε Unit × DriverState ε :=
  let s := { s with regmap := { s.regmap with
    reg7 := { s.regmap.reg7 with compression_ratio := ratio.toNat } } }
  write_regmap_reg bus s 7

/-- `Tpa2016d2::device_reg`: pure shadow accessor. -/
def device_reg {ε} (s : DriverState ε) (idx : Nat) :
    Except ε Nat × DriverState ε :=
  (Except.ok (s.regmap.reg_as_byte idx), s)

/-- The `for rid in lo..=hi { self.write_regmap_reg(rid)?; }` loop, as a
structural recursion over the list of register indices, stopping at the
first error (`?` operator). -/
def write_range {ε} (bus : I2CBus ε) :
    DriverState ε → List Nat → Except ε Unit × DriverState ε
  | s, [] => (Except.ok (), s)
  | s, r :: rest =>
    match write_regmap_reg bus s r with
    | (Except.ok _, s1) => write_range bus s1 rest
    | (Except.error e, s1) => (Except.error e, s1)

/-- The datasheet preset table from `set_agc_preset`. -/
def preset_table (preset : AgcPreset) :
    CompressionRatio × Nat × Nat × Nat × Nat × Nat :=
  match preset with
  | .Pop => (.Ratio4, 0b000010, 986, 137, 6, 0b111100)
  | .Classical => (.Ratio2, 0b000010, 1150, 137, 6, 0b111101)
  | .Jazz => (.Ratio2, 0b000110, 3288, 0, 6, 0b111101)
  | .Rap => (.Ratio4, 0b000010, 1640, 0, 6, 0b111100)
  | .Rock => (.Ratio2, 0b000011, 4110, 0, 6, 0b111101)
  | .Voice => (.Ratio4, 0b000010, 1640, 0, 6, 0b111110)

/-- The shadow mutations performed by `set_agc_preset` before its writes:
set the four magnitude registers (converted via the quantum-floor rules),
store the limiter level raw, and store the ratio discriminant. -/
def preset_mutate (rm : RegisterMap) (preset : AgcPreset) : RegisterMap :=
  let p := preset_table preset
  let cr := p.1
  let atk := p.2.1
  let rel := release_time_to_u6 p.2.2.1
  let hold := hold_time_to_u6 p.2.2.2.1
  let fixed_gain := p.2.2.2.2.1
  let limiter_level := p.2.2.2.2.2
  { rm with
    atk_time := rm.atk_time.set atk
    rel_time := rm.rel_time.set rel
    hold_time := rm.hold_time.set hold
    fixedGain := rm.fixedGain.set fixed_gain
    reg6 := { rm.reg6 with output_limiter_level := limiter_level }
    reg7 := { rm.reg7 with compression_ratio := cr.toNat } }

/-- `Tpa2016d2::set_agc_preset`: mutate the six shadow fields, then write
registers 2 through 7 in ascending order. -/
def set_agc_preset {ε} (bus : I2CBus ε) (s : DriverState ε) (preset : AgcPreset) :
    Except ε Unit × DriverState ε :=
  write_range bus { s with regmap := preset_mutate s.regmap preset } [2, 3, 4, 5, 6, 7]

/-- The `for i in 1..=7` loop body of `Tpa2016d2::sync`. -/
def sync_aux {ε} (bus : I2CBus ε) :
    DriverState ε → List Nat → Except ε Unit × DriverState ε
  | s, [] => (Except.ok (), s)
  | s, i :: rest =>
    match read_reg bus s i with
    | (Except.ok v, s1) =>
        sync_aux bus { s1 with regmap := s1.regmap.update_map i v } rest
    | (Except.error e, s1) => (Except.error e, s1)

/-- `Tpa2016d2::sync`. -/
def sync {ε} (bus : I2CBus ε) (s : DriverState ε) :
    Except ε Unit × DriverState ε :=
  sync_aux bus s [1, 2, 3, 4, 5, 6, 7]

/-- One public driver operation, for reasoning about arbitrary call
sequences against a controller. -/
inductive Op where
  | speaker_enable (le re : Bool)
  | get_faults
  | disable_device
  | noise_gate (enable : Bool)
  | set_attack_time (v : Nat)
  | set_release_time (v : Nat)
  | set_hold_time (v : Nat)
  | gain (v : Nat)
  | noise_gate_threshold (t : NoiseGateThreshold)
  | output_limiter_level (v : Nat)
  | compression_ratio (r : CompressionRatio)
  | set_agc_preset (p : AgcPreset)
  | sync
  | device_reg (idx : Nat)

/-- Execute one public operation, keeping the resulting driver state. -/
def runOp {ε} (bus : I2CBus ε) (s : DriverState ε) : Op → DriverState ε
  | .speaker_enable le re => (speaker_enable bus s le re).2
  | .get_faults => (get_faults bus s).2
  | .disable_device => (disable_device bus s).2
  | .noise_gate e => (noise_gate bus s e).2
  | .set_attack_time v => (set_attack_time bus s v).2
  | .set_release_time v => (set_release_time bus s v).2
  | .set_hold_time v => (set_hold_time bus s v).2
  | .gain v => (gain bus s v).2
  | .noise_gate_threshold t => (noise_gate_threshold bus s t).2
  | .output_limiter_level v => (output_limiter_level bus s v).2
  | .compression_ratio r => (compression_ratio bus s r).2
  | .set_agc_preset p => (set_agc_preset bus s p).2
  | .sync => (sync bus s).2
  | .device_reg i => (device_reg s i).2

/-- Execute a sequence of public operations. -/
def runOps {ε} (bus : I2CBus ε) (s : DriverState ε) (ops : List Op) : DriverState ε :=
  ops.foldl (runOp bus) s

/-- The in-memory width invariant claimed for the shadow: every magnitude
field representable in its declared bit width (the output-limiter level is
deliberately omitted here; see the C6 counterexample). -/
def shadowInvAmended (rm : RegisterMap) : Prop :=
  rm.atk_time.val < 64 ∧ rm.rel_time.val < 64 ∧ rm.hold_time.val < 64 ∧
  rm.fixedGain.val < 64 ∧ rm.reg6.noise_gate_threshold < 4 ∧
  rm.reg7.max_gain < 16 ∧ rm.reg7.compression_ratio < 4

/-- A bus that acknowledges every transaction (for concrete runs). -/
def okBus : I2CBus Unit :=
  { writeFn := fun _ _ _ => Except.ok ()
    writeReadFn := fun _ _ _ => Except.ok 0 }

/-- A bus that fails every transaction with error code 5 (for concrete runs). -/
def failBus : I2CBus Nat :=
  { writeFn := fun _ _ _ => Except.error 5
    writeReadFn := fun _ _ _ => Except.error 5 }

/-- A bus whose register reads always return the byte `0x9C` (for concrete
runs exercising the fault-read path). -/
def faultBus : I2CBus Unit :=
  { writeFn := fun _ _ _ => Except.ok ()
    writeReadFn := fun _ _ _ => Except.ok 0x9C }

/-- The initial driver state: `Tpa2016d2::new` with an empty history. -/
def initState (ε : Type) : DriverState ε :=
  { regmap := RegisterMap.default, trace := [] }

/-! ## Bitwise helper lemmas -/

theorem and_3_eq_mod (v : Nat) : v &&& 3 = v % 4 := by
  have h := Nat.and_pow_two_sub_one_eq_mod v 2
  norm_num at h
  exact h

theorem and_15_eq_mod (v : Nat) : v &&& 15 = v % 16 := by
  have h := Nat.and_pow_two_sub_one_eq_mod v 4
  norm_num at h
  exact h

theorem and_31_eq_mod (v : Nat) : v &&& 31 = v % 32 := by
  have h := Nat.and_pow_two_sub_one_eq_mod v 5
  norm_num at h
  exact h

theorem and_63_eq_mod (v : Nat) : v &&& 63 = v % 64 := by
  have h := Nat.and_pow_two_sub_one_eq_mod v 6
  norm_num at h
  exact h

theorem lor_eq_add (a b k : Nat) (ha : ∃ m, a = 2 ^ k * m) (hb : b < 2 ^ k) :
    a ||| b = a + b := by
  obtain ⟨m, rfl⟩ := ha
  exact (Nat.mul_add_lt_is_or hb m).symm

theorem and_one_shl_bne (x k : Nat) : (x &&& (1 <<< k) != 0) = x.testBit k := by
  have h1 : (1 <<< k : Nat) = 2 ^ k := by rw [Nat.shiftLeft_eq, one_mul]
  rw [h1, Nat.and_two_pow]
  cases h : x.testBit k <;> simp

theorem and_one_bne (x : Nat) : (x &&& 1 != 0) = x.testBit 0 := by
  have h := and_one_shl_bne x 0
  simpa using h

/-! ## Arithmetic decompositions of the encoders -/

theorem register1_as_byte_eq (r : Register1) :
    r.as_byte = 128 * r.SPK_EN_R.toNat + 64 * r.SPK_EN_L.toNat + 32 * r.SWS.toNat +
      16 * r.FAULT_R.toNat + 8 * r.FAULT_L.toNat + 4 * r.Thermal.toNat + 2 +
      r.NG_EN.toNat := by
  obtain ⟨a, b, c, d, e, f, g⟩ := r
  revert a b c d e f g
  decide

theorem u6_as_byte_eq (v : Nat) : U6Register.as_byte ⟨v⟩ = v % 64 :=
  and_63_eq_mod v

theorem register6_as_byte_eq (d : Bool) (n l : Nat) :
    Register6.as_byte ⟨d, n, l⟩ = 128 * d.toNat + 32 * (n % 4) + l % 32 := by
  have e2 : n &&& 3 = n % 4 := and_3_eq_mod n
  have e3 : l &&& 31 = l % 32 := and_31_eq_mod l
  have e4 : (n % 4) <<< 5 = (n % 4) * 32 := by rw [Nat.shiftLeft_eq]
  cases d
  · show ((0 : Nat) ||| ((n &&& 3) <<< 5)) ||| (l &&& 31) = 128 * 0 + 32 * (n % 4) + l % 32
    rw [e2, e3, e4, Nat.zero_or]
    rw [lor_eq_add ((n % 4) * 32) (l % 32) 5 ⟨n % 4, by omega⟩ (by omega)]
    omega
  · show (((0 : Nat) ||| (1 <<< 7)) ||| ((n &&& 3) <<< 5)) ||| (l &&& 31) =
      128 * 1 + 32 * (n % 4) + l % 32
    have e1 : ((0 : Nat) ||| (1 <<< 7)) = 128 := by decide
    rw [e1, e2, e3, e4]
    rw [lor_eq_add 128 ((n % 4) * 32) 7 ⟨1, by omega⟩ (by omega)]
    rw [lor_eq_add (128 + (n % 4) * 32) (l % 32) 5 ⟨4 + n % 4, by omega⟩ (by omega)]
    omega

theorem register7_as_byte_eq (g c : Nat) :
    Register7.as_byte ⟨g, c⟩ = 16 * (g % 16) + c % 4 := by
  show ((g &&& 15) <<< 4) ||| (c &&& 3) = 16 * (g % 16) + c % 4
  rw [and_15_eq_mod, and_3_eq_mod, Nat.shiftLeft_eq]
  rw [lor_eq_add ((g % 16) * 2 ^ 4) (c % 4) 4 ⟨g % 16, by omega⟩ (by omega)]
  omega

/-! ## Round-trip lemmas per register kind -/

theorem register1_roundtrip (r s : Register1) :
    Register1.update s r.as_byte = r := by
  obtain ⟨a, b, c, d, e, f, g⟩ := r
  show Register1.update Register1.default
      (Register1.as_byte ⟨a, b, c, d, e, f, g⟩) = ⟨a, b, c, d, e, f, g⟩
  revert a b c d e f g
  decide

theorem u6_roundtrip (v : Nat) (s : U6Register) (h : v < 64) :
    U6Register.update s (U6Register.as_byte ⟨v⟩) = ⟨v⟩ := by
  have hv : (v &&& 63) &&& 63 = v := by
    rw [and_63_eq_mod, and_63_eq_mod]
    omega
  exact congrArg U6Register.mk hv

theorem testBit_of_lt_128 {x : Nat} (h : x < 128) : x.testBit 7 = false := by
  rw [Nat.testBit_to_div_mod]
  rw [decide_eq_false_iff_not]
  have h7 : (2 : Nat) ^ 7 = 128 := by norm_num
  rw [h7]
  omega

theorem testBit_7_of_add_128 {x : Nat} (h : x < 128) : (128 + x).testBit 7 = true := by
  rw [Nat.testBit_to_div_mod]
  rw [decide_eq_true_eq]
  have h7 : (2 : Nat) ^ 7 = 128 := by norm_num
  rw [h7]
  omega

theorem register6_roundtrip (d : Bool) (n l : Nat) (s : Register6)
    (hn : n < 4) (hl : l < 32) :
    Register6.update s (Register6.as_byte ⟨d, n, l⟩) = ⟨d, n, l⟩ := by
  rw [register6_as_byte_eq]
  rw [Nat.mod_eq_of_lt hn, Nat.mod_eq_of_lt hl]
  show Register6.mk _ _ _ = _
  rw [Register6.mk.injEq]
  refine ⟨?_, ?_, ?_⟩
  · rw [and_one_shl_bne]
    cases d
    · simp only [Bool.toNat_false]
      rw [testBit_of_lt_128 (by omega)]
    · simp only [Bool.toNat_true]
      have h : 128 * 1 + 32 * n + l = 128 + (32 * n + l) := by omega
      rw [h, testBit_7_of_add_128 (by omega)]
  · rw [Nat.shiftRight_eq_div_pow, and_3_eq_mod]
    have h5 : (2 : Nat) ^ 5 = 32 := by norm_num
    rw [h5]
    have hd := Bool.toNat_le d
    omega
  · rw [and_31_eq_mod]
    have hd := Bool.toNat_le d
    omega

theorem register7_roundtrip (g c : Nat) (s : Register7) (hg : g < 16) (hc : c < 4) :
    Register7.update s (Register7.as_byte ⟨g, c⟩) = ⟨g, c⟩ := by
  rw [register7_as_byte_eq]
  rw [Nat.mod_eq_of_lt hg, Nat.mod_eq_of_lt hc]
  show Register7.mk _ _ = _
  rw [Register7.mk.injEq]
  refine ⟨?_, ?_⟩
  · rw [Nat.shiftRight_eq_div_pow]
    have h4 : (2 : Nat) ^ 4 = 16 := by norm_num
    rw [h4]
    omega
  · rw [and_3_eq_mod]
    omega

/-- C1: for every register kind and every legal combination of field values,
decoding the byte produced by encoding those fields restores exactly the same
field values (reserved bits are not fields, so they are outside the
comparison); the decode overwrites an arbitrary prior record `s`. -/
theorem C1_encode_decode_roundtrip :
    (∀ (r s : Register1), Register1.update s r.as_byte = r) ∧
    (∀ (v : Nat) (s : U6Register), v < 64 →
      U6Register.update s (U6Register.as_byte ⟨v⟩) = ⟨v⟩) ∧
    (∀ (d : Bool) (n l : Nat) (s : Register6), n < 4 → l < 32 →
      Register6.update s (Register6.as_byte ⟨d, n, l⟩) = ⟨d, n, l⟩) ∧
    (∀ (g c : Nat) (s : Register7), g < 16 → c < 4 →
      Register7.update s (Register7.as_byte ⟨g, c⟩) = ⟨g, c⟩) :=
  ⟨register1_roundtrip,
   fun v s h => u6_roundtrip v s h,
   fun d n l s hn hl => register6_roundtrip d n l s hn hl,
   fun g c s hg hc => register7_roundtrip g c s hg hc⟩

/-- C1 witness: the round-trip law applied at concrete legal field values. -/
theorem C1_encode_decode_roundtrip_witness :
    Register1.update Register1.default
      (Register1.as_byte ⟨true, false, true, false, true, false, true⟩) =
      ⟨true, false, true, false, true, false, true⟩ ∧
    U6Register.update ⟨0⟩ (U6Register.as_byte ⟨37⟩) = ⟨37⟩ ∧
    Register6.update Register6.default (Register6.as_byte ⟨true, 2, 21⟩) =
      ⟨true, 2, 21⟩ ∧
    Register7.update Register7.default (Register7.as_byte ⟨9, 3⟩) = ⟨9, 3⟩ :=
  ⟨C1_encode_decode_roundtrip.1 _ _,
   C1_encode_decode_roundtrip.2.1 37 ⟨0⟩ (by decide),
   C1_encode_decode_roundtrip.2.2.1 true 2 21 Register6.default (by decide) (by decide),
   C1_encode_decode_roundtrip.2.2.2 9 3 Register7.default (by decide) (by decide)⟩

/-- C2: the freshly constructed register map, encoded address-by-address for
addresses 1 through 7, yields exactly the documented reset bytes. -/
theorem C2_default_encode :
    [RegisterMap.default.reg_as_byte 1, RegisterMap.default.reg_as_byte 2,
     RegisterMap.default.reg_as_byte 3, RegisterMap.default.reg_as_byte 4,
     RegisterMap.default.reg_as_byte 5, RegisterMap.default.reg_as_byte 6,
     RegisterMap.default.reg_as_byte 7] =
    [0xC3, 0x05, 0x0B, 0x00, 0x06, 0x3A, 0xC2] := by
  decide

/-- C7: the release-time and hold-time conversions at the documented sample
points, computed by integer floor-division by the per-field quantum (1644 ms
and 137 ms); the two extra points show sub-quantum remainders being dropped
(floor, not rounding). -/
theorem C7_time_quantum_conversion :
    release_time_to_u6 1644 = 0b000001 ∧ release_time_to_u6 4932 = 0b000011 ∧
    release_time_to_u6 103600 = 0b111111 ∧
    hold_time_to_u6 137 = 0b000001 ∧ hold_time_to_u6 411 = 0b000011 ∧
    hold_time_to_u6 8631 = 0b111111 ∧
    release_time_to_u6 3287 = 0b000001 ∧ hold_time_to_u6 273 = 0b000001 := by
  decide

/-- C9: for every combination of register-1 field values, the encoded byte
has its reserved bit (bit 1) set. -/
theorem C9_reserved_bit_always_set (r : Register1) : r.as_byte.testBit 1 = true := by
  obtain ⟨a, b, c, d, e, f, g⟩ := r
  revert a b c d e f g
  decide

/-! ## Low-level driver lemmas -/

theorem write_regmap_reg_eq {ε} (bus : I2CBus ε) (s : DriverState ε) (i : Nat) :
    write_regmap_reg bus s i =
      (bus.writeFn s.trace TPA2016_I2C_ADDR [i, s.regmap.reg_as_byte i],
       { s with trace := s.trace ++
         [Transaction.write TPA2016_I2C_ADDR [i, s.regmap.reg_as_byte i]] }) := rfl

/-- C8: the raw low-level register read, given address 0 or any address at or
above 8, returns `Ok(0)` without issuing any bus transaction (the state, and
in particular the transaction trace, is returned unchanged). -/
theorem C8_read_reg_out_of_range {ε} (bus : I2CBus ε) (s : DriverState ε)
    (regidx : Nat) (h : regidx = 0 ∨ 8 ≤ regidx) :
    read_reg bus s regidx = (Except.ok 0, s) := by
  have hc : regidx < 1 ∨ regidx > 7 := by omega
  simp only [read_reg, if_pos hc]

/-- C8 witness: addresses 0 and 8, on a live bus and the fresh driver state. -/
theorem C8_read_reg_out_of_range_witness :
    read_reg okBus (initState Unit) 0 = (Except.ok 0, initState Unit) ∧
    read_reg okBus (initState Unit) 8 = (Except.ok 0, initState Unit) :=
  ⟨C8_read_reg_out_of_range okBus (initState Unit) 0 (Or.inl rfl),
   C8_read_reg_out_of_range okBus (initState Unit) 8 (Or.inr (by omega))⟩

/-- C3: for every single-register operation, when the transport write fails
the operation returns the transport's error value unchanged while the shadow
already holds the newly requested field value (the mutation precedes the
write and is not rolled back). -/
theorem C3_shadow_before_failed_write {ε} (bus : I2CBus ε) (e : ε) (s : DriverState ε)
    (hfail : ∀ bs, bus.writeFn s.trace TPA2016_I2C_ADDR bs = Except.error e) :
    (∀ le re, (speaker_enable bus s le re).1 = Except.error e ∧
      (speaker_enable bus s le re).2.regmap.reg1.SPK_EN_L = le ∧
      (speaker_enable bus s le re).2.regmap.reg1.SPK_EN_R = re) ∧
    ((disable_device bus s).1 = Except.error e ∧
      (disable_device bus s).2.regmap.reg1.SWS = true) ∧
    (∀ b, (noise_gate bus s b).1 = Except.error e ∧
      (noise_gate bus s b).2.regmap.reg1.NG_EN = b) ∧
    (∀ v, (set_attack_time bus s v).1 = Except.error e ∧
      (set_attack_time bus s v).2.regmap.atk_time = s.regmap.atk_time.set v) ∧
    (∀ v, (set_release_time bus s v).1 = Except.error e ∧
      (set_release_time bus s v).2.regmap.rel_time = s.regmap.rel_time.set v) ∧
    (∀ v, (set_hold_time bus s v).1 = Except.error e ∧
      (set_hold_time bus s v).2.regmap.hold_time = s.regmap.hold_time.set v) ∧
    (∀ v, (gain bus s v).1 = Except.error e ∧
      (gain bus s v).2.regmap.fixedGain = s.regmap.fixedGain.set v) ∧
    (∀ t, (noise_gate_threshold bus s t).1 = Except.error e ∧
      (noise_gate_threshold bus s t).2.regmap.reg6.noise_gate_threshold = t.toNat) ∧
    (∀ v, (output_limiter_level bus s v).1 = Except.error e ∧
      (output_limiter_level bus s v).2.regmap.reg6.output_limiter_level = v) ∧
    (∀ r, (compression_ratio bus s r).1 = Except.error e ∧
      (compression_ratio bus s r).2.regmap.reg7.compression_ratio = r.toNat) :=
  ⟨fun _ _ => ⟨hfail _, rfl, rfl⟩,
   ⟨hfail _, rfl⟩,
   fun _ => ⟨hfail _, rfl⟩,
   fun _ => ⟨hfail _, rfl⟩,
   fun _ => ⟨hfail _, rfl⟩,
   fun _ => ⟨hfail _, rfl⟩,
   fun _ => ⟨hfail _, rfl⟩,
   fun _ => ⟨hfail _, rfl⟩,
   fun _ => ⟨hfail _, rfl⟩,
   fun _ => ⟨hfail _, rfl⟩⟩

/-- C3 witness: a concrete always-failing bus; the error code 5 comes back
verbatim and the shadow holds the requested values. -/
theorem C3_shadow_before_failed_write_witness :
    (speaker_enable failBus (initState Nat) false true).1 = Except.error 5 ∧
    (speaker_enable failBus (initState Nat) false true).2.regmap.reg1.SPK_EN_L = false ∧
    (speaker_enable failBus (initState Nat) false true).2.regmap.reg1.SPK_EN_R = true ∧
    (output_limiter_level failBus (initState Nat) 20).1 = Except.error 5 ∧
    (output_limiter_level failBus (initState Nat) 20).2.regmap.reg6.output_limiter_level = 20 := by
  have h := C3_shadow_before_failed_write failBus 5 (initState Nat) (fun _ => rfl)
  exact ⟨(h.1 false true).1, (h.1 false true).2.1, (h.1 false true).2.2,
    (h.2.2.2.2.2.2.2.2.1 20).1, (h.2.2.2.2.2.2.2.2.1 20).2⟩

/-- C5: `get_faults` issues exactly one transport read of register 1, decodes
the returned byte into the shadow before returning, and the three returned
flags equal bits 4, 3, 2 of the byte just read — independent of whatever the
shadow held before the call (the prior state `s` is arbitrary). -/
theorem C5_get_faults_fresh {ε} (bus : I2CBus ε) (s : DriverState ε) (v : Nat)
    (h : bus.writeReadFn s.trace TPA2016_I2C_ADDR [1] = Except.ok v) :
    (get_faults bus s).1 = Except.ok
      ⟨(v % 256).testBit 4, (v % 256).testBit 3, (v % 256).testBit 2⟩ ∧
    (get_faults bus s).2.trace =
      s.trace ++ [Transaction.writeRead TPA2016_I2C_ADDR [1] 1] ∧
    (get_faults bus s).2.regmap = s.regmap.update_map 1 (v % 256) := by
  have hr : read_reg bus s 1 = (Except.ok (v % 256),
      { s with trace := s.trace ++ [Transaction.writeRead TPA2016_I2C_ADDR [1] 1] }) := by
    unfold read_reg
    rw [if_neg (by omega), h]
  unfold get_faults
  rw [hr]
  refine ⟨?_, rfl, rfl⟩
  show Except.ok
      (Faults.mk ((v % 256) &&& (1 <<< 4) != 0) ((v % 256) &&& (1 <<< 3) != 0)
        ((v % 256) &&& (1 <<< 2) != 0)) =
    Except.ok (Faults.mk ((v % 256).testBit 4) ((v % 256).testBit 3) ((v % 256).testBit 2))
  rw [and_one_shl_bne, and_one_shl_bne, and_one_shl_bne]

/-- C5 witness: a bus whose register-1 read returns `0x9C` (fault-right,
fault-left and thermal bits set); the flags come from that byte, not from
the fresh shadow whose fault flags are all clear. -/
theorem C5_get_faults_fresh_witness :
    (get_faults faultBus (initState Unit)).1 = Except.ok ⟨true, true, true⟩ ∧
    (get_faults faultBus (initState Unit)).2.trace =
      [Transaction.writeRead TPA2016_I2C_ADDR [1] 1] := by
  have h := C5_get_faults_fresh faultBus (initState Unit) 0x9C rfl
  refine ⟨?_, ?_⟩
  · rw [h.1]
    rfl
  · rw [h.2.1]
    rfl

/-- The write loop of `set_agc_preset` appends one attempted write per
visited index, visiting a prefix of the index list in order, the whole list
exactly when the result is `Ok`. -/
theorem write_range_spec {ε} (bus : I2CBus ε) :
    ∀ (rs : List Nat) (s : DriverState ε),
      ∃ new : List Transaction,
        (write_range bus s rs).2.trace = s.trace ++ new ∧
        new.map Transaction.regAddr = rs.take new.length ∧
        (∀ t ∈ new, t.isWrite = true) ∧
        ((write_range bus s rs).1 = Except.ok () → new.map Transaction.regAddr = rs) := by
  intro rs
  induction rs with
  | nil =>
    intro s
    exact ⟨[], by simp [write_range], by simp, by simp, fun _ => by simp⟩
  | cons r rest ih =>
    intro s
    simp only [write_range]
    split
    next u s1 heq =>
      obtain ⟨new1, g1, g2, g3, g4⟩ := ih s1
      have hs1 : s1 = { s with trace := s.trace ++
          [Transaction.write TPA2016_I2C_ADDR [r, s.regmap.reg_as_byte r]] } := by
        have h2 := congrArg Prod.snd heq
        rw [write_regmap_reg_eq] at h2
        exact h2.symm
      refine ⟨Transaction.write TPA2016_I2C_ADDR [r, s.regmap.reg_as_byte r] :: new1,
        ?_, ?_, ?_, ?_⟩
      · rw [g1, hs1]
        simp
      · simp only [List.map_cons, List.length_cons, List.take_succ_cons]
        rw [g2]
        rfl
      · intro t ht
        rcases List.mem_cons.mp ht with h | h
        · rw [h]; rfl
        · exact g3 t h
      · intro hok
        simp only [List.map_cons]
        rw [g4 hok]
        rfl
    next e s1 heq =>
      have hs1 : s1 = { s with trace := s.trace ++
          [Transaction.write TPA2016_I2C_ADDR [r, s.regmap.reg_as_byte r]] } := by
        have h2 := congrArg Prod.snd heq
        rw [write_regmap_reg_eq] at h2
        exact h2.symm
      refine ⟨[Transaction.write TPA2016_I2C_ADDR [r, s.regmap.reg_as_byte r]],
        ?_, ?_, ?_, ?_⟩
      · rw [hs1]
      · rfl
      · intro t ht
        rw [List.mem_singleton.mp ht]
        rfl
      · intro hok
        simp at hok

/-- C4: applying any named AGC preset issues attempted writes to register
addresses forming a prefix of `[2, 3, 4, 5, 6, 7]` in that order (so a
failure at some address suppresses all writes to higher addresses), all of
them plain bus writes, never to address 1, and exactly the six addresses
2..7 whenever the operation succeeds. -/
theorem C4_preset_write_order {ε} (bus : I2CBus ε) (s : DriverState ε) (p : AgcPreset) :
    ∃ new : List Transaction,
      (set_agc_preset bus s p).2.trace = s.trace ++ new ∧
      new.map Transaction.regAddr = [2, 3, 4, 5, 6, 7].take new.length ∧
      (∀ t ∈ new, t.isWrite = true) ∧
      (∀ t ∈ new, t.regAddr ≠ 1) ∧
      ((set_agc_preset bus s p).1 = Except.ok () →
        new.map Transaction.regAddr = [2, 3, 4, 5, 6, 7]) := by
  obtain ⟨new, h1, h2, h3, h4⟩ :=
    write_range_spec bus [2, 3, 4, 5, 6, 7] { s with regmap := preset_mutate s.regmap p }
  refine ⟨new, h1, h2, h3, ?_, h4⟩
  intro t ht
  have hmem : t.regAddr ∈ new.map Transaction.regAddr := List.mem_map_of_mem _ ht
  rw [h2] at hmem
  have hmem2 : t.regAddr ∈ [2, 3, 4, 5, 6, 7] := List.mem_of_mem_take hmem
  simp at hmem2
  omega

/-- C4 witness: the Pop preset on an always-acknowledging bus issues exactly
the writes to addresses 2, 3, 4, 5, 6, 7 in that order. -/
theorem C4_preset_write_order_witness :
    ((set_agc_preset okBus (initState Unit) AgcPreset.Pop).2.trace).map
      Transaction.regAddr = [2, 3, 4, 5, 6, 7] := by
  obtain ⟨new, h1, h2, h3, h5, h4⟩ :=
    C4_preset_write_order okBus (initState Unit) AgcPreset.Pop
  have hok : (set_agc_preset okBus (initState Unit) AgcPreset.Pop).1 = Except.ok () := rfl
  rw [h1]
  simpa using h4 hok

/-! ## Shadow width invariant machinery (C6) -/

theorem compression_ratio_toNat_lt (c : CompressionRatio) : c.toNat < 4 := by
  cases c <;> decide

theorem noise_gate_threshold_toNat_lt (t : NoiseGateThreshold) : t.toNat < 4 := by
  cases t <;> decide

theorem u6_set_lt (s : U6Register) (v : Nat) : (s.set v).val < 64 := by
  show v &&& 63 < 64
  rw [and_63_eq_mod]
  omega

theorem shadowInv_default : shadowInvAmended RegisterMap.default :=
  ⟨by decide, by decide, by decide, by decide, by decide, by decide, by decide⟩

theorem update_map_inv (rm : RegisterMap) (i v : Nat) (hv : v < 256)
    (h : shadowInvAmended rm) : shadowInvAmended (rm.update_map i v) := by
  obtain ⟨h1, h2, h3, h4, h5, h6, h7⟩ := h
  have hu6 : v &&& 63 < 64 := by rw [and_63_eq_mod]; omega
  unfold RegisterMap.update_map
  split
  · exact ⟨h1, h2, h3, h4, h5, h6, h7⟩
  · exact ⟨hu6, h2, h3, h4, h5, h6, h7⟩
  · exact ⟨h1, hu6, h3, h4, h5, h6, h7⟩
  · exact ⟨h1, h2, hu6, h4, h5, h6, h7⟩
  · exact ⟨h1, h2, h3, hu6, h5, h6, h7⟩
  · refine ⟨h1, h2, h3, h4, ?_, h6, h7⟩
    show (v >>> 5) &&& 3 < 4
    rw [and_3_eq_mod]
    omega
  · refine ⟨h1, h2, h3, h4, h5, ?_, ?_⟩
    · show v >>> 4 < 16
      rw [Nat.shiftRight_eq_div_pow]
      have h16 : (2 : Nat) ^ 4 = 16 := by norm_num
      rw [h16]
      omega
    · show v &&& 3 < 4
      rw [and_3_eq_mod]
      omega
  · exact ⟨h1, h2, h3, h4, h5, h6, h7⟩

theorem read_reg_regmap {ε} (bus : I2CBus ε) (s : DriverState ε) (i : Nat) :
    (read_reg bus s i).2.regmap = s.regmap := by
  unfold read_reg
  split
  · rfl
  · split <;> rfl

theorem read_reg_ok_lt {ε} (bus : I2CBus ε) (s : DriverState ε) (i : Nat) {v : Nat}
    (h : (read_reg bus s i).1 = Except.ok v) : v < 256 := by
  unfold read_reg at h
  split at h
  · simp only [Except.ok.injEq] at h
    omega
  · split at h
    · simp only [Except.ok.injEq] at h
      omega
    · simp at h

theorem write_range_regmap {ε} (bus : I2CBus ε) :
    ∀ (rs : List Nat) (s : DriverState ε),
      (write_range bus s rs).2.regmap = s.regmap := by
  intro rs
  induction rs with
  | nil => intro s; rfl
  | cons r rest ih =>
    intro s
    simp only [write_range]
    split
    next u s1 heq =>
      rw [ih s1]
      have h2 := congrArg (fun q : Except ε Unit × DriverState ε => q.2.regmap) heq
      exact h2.symm
    next e s1 heq =>
      have h2 := congrArg (fun q : Except ε Unit × DriverState ε => q.2.regmap) heq
      exact h2.symm

theorem preset_mutate_inv (rm : RegisterMap) (p : AgcPreset)
    (h : shadowInvAmended rm) : shadowInvAmended (preset_mutate rm p) := by
  obtain ⟨h1, h2, h3, h4, h5, h6, h7⟩ := h
  refine ⟨?_, ?_, ?_, ?_, h5, h6, ?_⟩
  · exact u6_set_lt rm.atk_time (preset_table p).2.1
  · exact u6_set_lt rm.rel_time (release_time_to_u6 (preset_table p).2.2.1)
  · exact u6_set_lt rm.hold_time (hold_time_to_u6 (preset_table p).2.2.2.1)
  · exact u6_set_lt rm.fixedGain (preset_table p).2.2.2.2.1
  · exact compression_ratio_toNat_lt (preset_table p).1

theorem sync_aux_inv {ε} (bus : I2CBus ε) :
    ∀ (is : List Nat) (s : DriverState ε), shadowInvAmended s.regmap →
      shadowInvAmended (sync_aux bus s is).2.regmap := by
  intro is
  induction is with
  | nil => intro s h; exact h
  | cons i rest ih =>
    intro s h
    simp only [sync_aux]
    split
    next v s1 heq =>
      apply ih
      have hm : s1.regmap = s.regmap := by
        rw [← read_reg_regmap bus s i, heq]
      have hv : v < 256 := by
        refine read_reg_ok_lt bus s i ?_
        exact congrArg Prod.fst heq
      show shadowInvAmended (s1.regmap.update_map i v)
      rw [hm]
      exact update_map_inv _ _ _ hv h
    next e s1 heq =>
      have hm : s1.regmap = s.regmap := by
        rw [← read_reg_regmap bus s i, heq]
      show shadowInvAmended s1.regmap
      rw [hm]
      exact h

theorem runOp_inv {ε} (bus : I2CBus ε) (s : DriverState ε) (op : Op)
    (h : shadowInvAmended s.regmap) : shadowInvAmended (runOp bus s op).regmap := by
  obtain ⟨h1, h2, h3, h4, h5, h6, h7⟩ := h
  cases op with
  | speaker_enable le re => exact ⟨h1, h2, h3, h4, h5, h6, h7⟩
  | get_faults =>
    show shadowInvAmended (get_faults bus s).2.regmap
    unfold get_faults
    split
    next v s1 heq =>
      have hm : s1.regmap = s.regmap := by
        rw [← read_reg_regmap bus s 1, heq]
      have hv : v < 256 := by
        refine read_reg_ok_lt bus s 1 ?_
        exact congrArg Prod.fst heq
      show shadowInvAmended (s1.regmap.update_map 1 v)
      rw [hm]
      exact update_map_inv _ _ _ hv ⟨h1, h2, h3, h4, h5, h6, h7⟩
    next e s1 heq =>
      have hm : s1.regmap = s.regmap := by
        rw [← read_reg_regmap bus s 1, heq]
      show shadowInvAmended s1.regmap
      rw [hm]
      exact ⟨h1, h2, h3, h4, h5, h6, h7⟩
  | disable_device => exact ⟨h1, h2, h3, h4, h5, h6, h7⟩
  | noise_gate e => exact ⟨h1, h2, h3, h4, h5, h6, h7⟩
  | set_attack_time v => exact ⟨u6_set_lt s.regmap.atk_time v, h2, h3, h4, h5, h6, h7⟩
  | set_release_time v => exact ⟨h1, u6_set_lt s.regmap.rel_time v, h3, h4, h5, h6, h7⟩
  | set_hold_time v => exact ⟨h1, h2, u6_set_lt s.regmap.hold_time v, h4, h5, h6, h7⟩
  | gain v => exact ⟨h1, h2, h3, u6_set_lt s.regmap.fixedGain v, h5, h6, h7⟩
  | noise_gate_threshold t =>
    exact ⟨h1, h2, h3, h4, noise_gate_threshold_toNat_lt t, h6, h7⟩
  | output_limiter_level v => exact ⟨h1, h2, h3, h4, h5, h6, h7⟩
  | compression_ratio r =>
    exact ⟨h1, h2, h3, h4, h5, h6, compression_ratio_toNat_lt r⟩
  | set_agc_preset p =>
    show shadowInvAmended (set_agc_preset bus s p).2.regmap
    show shadowInvAmended
      (write_range bus { s with regmap := preset_mutate s.regmap p } [2, 3, 4, 5, 6, 7]).2.regmap
    rw [write_range_regmap]
    exact preset_mutate_inv _ _ ⟨h1, h2, h3, h4, h5, h6, h7⟩
  | sync => exact sync_aux_inv bus [1, 2, 3, 4, 5, 6, 7] s ⟨h1, h2, h3, h4, h5, h6, h7⟩
  | device_reg i => exact ⟨h1, h2, h3, h4, h5, h6, h7⟩

theorem runOps_inv {ε} (bus : I2CBus ε) :
    ∀ (ops : List Op) (s : DriverState ε), shadowInvAmended s.regmap →
      shadowInvAmended (runOps bus s ops).regmap := by
  intro ops
  induction ops with
  | nil => intro s h; exact h
  | cons op rest ih => intro s h; exact ih _ (runOp_inv bus s op h)

/-- C6 counterexample: the claim that after every sequence of public
operations every magnitude field is representable in its declared bit width
fails for the 5-bit output-limiter level: applying the Pop preset (a plain
datasheet value, on a bus that acknowledges everything) leaves the shadow's
output-limiter-level field holding `0b111100` = 60, which does not fit in
5 bits. -/
theorem C6_counterexample :
    (runOps okBus (initState Unit) [Op.set_agc_preset AgcPreset.Pop]).regmap.reg6.output_limiter_level = 60 ∧
    ¬ (runOps okBus (initState Unit) [Op.set_agc_preset AgcPreset.Pop]).regmap.reg6.output_limiter_level < 32 := by
  constructor
  · rfl
  · decide

theorem reg1_as_byte_lt (r : Register1) : r.as_byte < 256 := by
  rw [register1_as_byte_eq]
  have ha := Bool.toNat_le r.SPK_EN_R
  have hb := Bool.toNat_le r.SPK_EN_L
  have hc := Bool.toNat_le r.SWS
  have hd := Bool.toNat_le r.FAULT_R
  have he := Bool.toNat_le r.FAULT_L
  have hf := Bool.toNat_le r.Thermal
  have hg := Bool.toNat_le r.NG_EN
  omega

theorem reg6_as_byte_lt (r : Register6) : r.as_byte < 256 := by
  have h : r.as_byte = 128 * r.output_limiter_disable.toNat +
      32 * (r.noise_gate_threshold % 4) + r.output_limiter_level % 32 :=
    register6_as_byte_eq r.output_limiter_disable r.noise_gate_threshold
      r.output_limiter_level
  rw [h]
  have hd := Bool.toNat_le r.output_limiter_disable
  omega

theorem reg7_as_byte_lt (r : Register7) : r.as_byte < 256 := by
  have h : r.as_byte = 16 * (r.max_gain % 16) + r.compression_ratio % 4 :=
    register7_as_byte_eq r.max_gain r.compression_ratio
  rw [h]
  omega

/-- C6, amended: after every sequence of public operations (run against an
arbitrary transport from a fresh driver), every shadow magnitude field other
than the output-limiter level is representable in its declared bit width
(6 bits for registers 2-5, 2 bits for the noise-gate threshold and the
compression ratio, 4 bits for max gain); the output-limiter level is stored
unmasked by its setters.  Independently, encoding any register never sets
bits outside each field's declared (offset, width) window, regardless of the
stored field values: each encoder equals the sum of its fields, each masked
to its width and shifted to its own window. -/
theorem C6_shadow_width_invariant_amended {ε} (bus : I2CBus ε) (ops : List Op) :
    shadowInvAmended (runOps bus (initState ε) ops).regmap ∧
    (∀ v : Nat, U6Register.as_byte ⟨v⟩ = v % 64) ∧
    (∀ r : Register1, r.as_byte = 128 * r.SPK_EN_R.toNat + 64 * r.SPK_EN_L.toNat +
      32 * r.SWS.toNat + 16 * r.FAULT_R.toNat + 8 * r.FAULT_L.toNat +
      4 * r.Thermal.toNat + 2 + r.NG_EN.toNat) ∧
    (∀ (d : Bool) (n l : Nat), Register6.as_byte ⟨d, n, l⟩ =
      128 * d.toNat + 32 * (n % 4) + l % 32) ∧
    (∀ (g c : Nat), Register7.as_byte ⟨g, c⟩ = 16 * (g % 16) + c % 4) :=
  ⟨runOps_inv bus ops (initState ε) shadowInv_default,
   u6_as_byte_eq,
   register1_as_byte_eq,
   register6_as_byte_eq,
   register7_as_byte_eq⟩

/-- C10: `reg_as_byte` is total — for every register map and every index it
returns a value that fits in a byte, and for every index outside 1-7 the
returned byte is 0. -/
theorem C10_reg_as_byte_total (rm : RegisterMap) (idx : Nat) :
    rm.reg_as_byte idx < 256 ∧ ((idx = 0 ∨ 8 ≤ idx) → rm.reg_as_byte idx = 0) := by
  refine ⟨?_, fun h => ?_⟩
  · unfold RegisterMap.reg_as_byte
    split
    · exact reg1_as_byte_lt rm.reg1
    · show rm.atk_time.val &&& 63 < 256
      rw [and_63_eq_mod]; omega
    · show rm.rel_time.val &&& 63 < 256
      rw [and_63_eq_mod]; omega
    · show rm.hold_time.val &&& 63 < 256
      rw [and_63_eq_mod]; omega
    · show rm.fixedGain.val &&& 63 < 256
      rw [and_63_eq_mod]; omega
    · exact reg6_as_byte_lt rm.reg6
    · exact reg7_as_byte_lt rm.reg7
    · omega
  · unfold RegisterMap.reg_as_byte
    split
    all_goals first
    | rfl
    | omega

/-- C10 witness: indices 0 and 9 on the default map give a byte, namely 0. -/
theorem C10_reg_as_byte_total_witness :
    RegisterMap.default.reg_as_byte 0 < 256 ∧
    RegisterMap.default.reg_as_byte 0 = 0 ∧
    RegisterMap.default.reg_as_byte 9 = 0 :=
  ⟨(C10_reg_as_byte_total RegisterMap.default 0).1,
   (C10_reg_as_byte_total RegisterMap.default 0).2 (Or.inl rfl),
   (C10_reg_as_byte_total RegisterMap.default 9).2 (Or.inr (by omega))⟩
